import Mathlib

/-!
# STM32 car firmware: GPIO configuration library and DAC / TIM6 / DMA audio path

A shallow embedding of `stm32-car-fw/src/gpio.c` and `stm32-car-fw/src/dac.c`.

* Peripheral registers are natural numbers; every store into a 32-bit register is
  reduced with `u32`.
* The bit pattern of a C `int` is represented by the natural number below `2 ^ 32`
  with the same bits, so `~` and `<<` act on 32-bit patterns.  For the shifts
  `0b11 << 30` and `0xF << 28` the mathematical result is outside the range of
  `int`; the embedding takes the two's-complement pattern, which is what
  compilers for the Cortex-M target produce.
* Signed `int` arithmetic in `clock_init` / `clock_set` is done on `Int` and wrapped
  to 32 bits with `wrapInt32`; division is C's truncating division and is fallible
  (division by zero gives `none`).
* The device header (CMSIS `stm32l432xx.h`, pulled in through `ee14lib.h`) is not
  part of the sources, so the bit masks it defines are a parameter `K : CMSIS`.
* Registers change through the stores of the program and, during the wait inside
  `trigger_horn`, through the armed DMA transfer (`dma_trigger`, `delay`), which is
  modelled from the specification; no other hardware activity is modelled.
* `double` arithmetic in `create_sin_table` is exact arithmetic in an ordered field
  `α` with a sine function on it; the theorems take `α = ℝ` and the real sine.
-/

namespace EE14

/-! ## 32-bit words -/

/-- The value of an expression once stored in a 32-bit unsigned object. -/
def u32 (x : ℕ) : ℕ := x % 2 ^ 32

/-- The C operator `x << n` on a 32-bit operand: the low 32 bits of the shifted value. -/
def shl32 (x n : ℕ) : ℕ := (x <<< n) % 2 ^ 32

/-- The C operator `~x` on a 32-bit operand. -/
def not32 (x : ℕ) : ℕ := (2 ^ 32 - 1) ^^^ (x % 2 ^ 32)

/-- The `w`-bit field of `r` that starts at bit `sh`. -/
def getField (r w sh : ℕ) : ℕ := (r >>> sh) % 2 ^ w

/-! ## Device header constants and register file -/

/-- Bit masks of the CMSIS device header used by the two source files. -/
structure CMSIS where
  RCC_AHB2ENR_GPIOAEN : ℕ
  RCC_AHB2ENR_GPIOBEN : ℕ
  RCC_AHB2ENR_GPIOCEN : ℕ
  RCC_AHB2ENR_GPIOHEN : ℕ
  RCC_APB1ENR1_TIM6EN : ℕ
  TIM_DIER_UDE : ℕ
  TIM_CR2_MMS_Msk : ℕ
  TIM_CR2_MMS_1 : ℕ
  TIM_CR1_CEN : ℕ
  TIM_CR1_CEN_Msk : ℕ
  DMA_CCR_EN : ℕ

/-- The values the vendor header `stm32l432xx.h` gives to the masks. -/
def stm32l432xx : CMSIS where
  RCC_AHB2ENR_GPIOAEN := 0x1
  RCC_AHB2ENR_GPIOBEN := 0x2
  RCC_AHB2ENR_GPIOCEN := 0x4
  RCC_AHB2ENR_GPIOHEN := 0x80
  RCC_APB1ENR1_TIM6EN := 0x10
  TIM_DIER_UDE := 0x100
  TIM_CR2_MMS_Msk := 0x70
  TIM_CR2_MMS_1 := 0x20
  TIM_CR1_CEN := 0x1
  TIM_CR1_CEN_Msk := 0x1
  DMA_CCR_EN := 0x1

/-- The GPIO port base pointers that the library compares against. -/
inductive GPIO_Port where
  | GPIOA | GPIOB | GPIOC | GPIOH
  deriving DecidableEq, Repr

/-- The registers of one GPIO port (`AFR0`, `AFR1` are the array `AFR[2]`). -/
@[ext]
structure GPIO_TypeDef where
  MODER : ℕ
  OTYPER : ℕ
  OSPEEDR : ℕ
  PUPDR : ℕ
  IDR : ℕ
  ODR : ℕ
  AFR0 : ℕ
  AFR1 : ℕ
  deriving DecidableEq, Repr

/-- The memory-mapped registers touched by `gpio.c` and `dac.c`. -/
@[ext]
structure Hw where
  ports : GPIO_Port → GPIO_TypeDef
  RCC_AHB1ENR : ℕ
  RCC_AHB2ENR : ℕ
  RCC_APB1ENR1 : ℕ
  TIM6_CR1 : ℕ
  TIM6_CR2 : ℕ
  TIM6_DIER : ℕ
  TIM6_PSC : ℕ
  TIM6_ARR : ℕ
  DAC1_CR : ℕ
  DAC1_MCR : ℕ
  DAC1_DHR12R1 : ℕ
  DMA1_Channel3_CCR : ℕ
  DMA1_Channel3_CNDTR : ℕ
  DMA1_Channel3_CPAR : ℕ
  DMA1_Channel3_CMAR : ℕ
  DMA1_CSELR_CSELR : ℕ

/-- A register file with every register zero. -/
def Hw.zero : Hw where
  ports := fun _ => ⟨0, 0, 0, 0, 0, 0, 0, 0⟩
  RCC_AHB1ENR := 0
  RCC_AHB2ENR := 0
  RCC_APB1ENR1 := 0
  TIM6_CR1 := 0
  TIM6_CR2 := 0
  TIM6_DIER := 0
  TIM6_PSC := 0
  TIM6_ARR := 0
  DAC1_CR := 0
  DAC1_MCR := 0
  DAC1_DHR12R1 := 0
  DMA1_Channel3_CCR := 0
  DMA1_Channel3_CNDTR := 0
  DMA1_Channel3_CPAR := 0
  DMA1_Channel3_CMAR := 0
  DMA1_CSELR_CSELR := 0

/-- A read-modify-write of the register block behind the pointer `port`. -/
def Hw.modifyPort (s : Hw) (port : GPIO_Port) (f : GPIO_TypeDef → GPIO_TypeDef) : Hw :=
  { s with ports := Function.update s.ports port (f (s.ports port)) }

/-- Read `AFR[idx]`; the array has two elements. -/
def GPIO_TypeDef.readAFR (g : GPIO_TypeDef) (idx : ℕ) : Option ℕ :=
  match idx with
  | 0 => some g.AFR0
  | 1 => some g.AFR1
  | _ => none

/-- Write `AFR[idx]`; the array has two elements. -/
def GPIO_TypeDef.writeAFR (g : GPIO_TypeDef) (idx v : ℕ) : Option GPIO_TypeDef :=
  match idx with
  | 0 => some { g with AFR0 := v }
  | 1 => some { g with AFR1 := v }
  | _ => none

/-! ## `gpio.c` -/

/-- The result codes of the library (`ee14lib.h`). -/
inductive EE14Lib_Err where
  | EE14Lib_Err_OK
  | EE14Lib_ERR_INVALID_CONFIG
  deriving DecidableEq, Repr

/-- The Nucleo pin names, in the order of the rows of the two pin tables. -/
inductive EE14Lib_Pin where
  | A0 | A1 | A2 | A3 | A4 | A5 | A6 | A7
  | D0 | D1 | D2 | D3 | D4 | D5 | D6 | D7 | D8 | D9 | D10 | D11 | D12 | D13
  deriving DecidableEq, Repr

open EE14Lib_Pin GPIO_Port EE14Lib_Err

/-- The enumerator value of a pin name. -/
def EE14Lib_Pin.toNat : EE14Lib_Pin → ℕ
  | A0 => 0 | A1 => 1 | A2 => 2 | A3 => 3 | A4 => 4 | A5 => 5 | A6 => 6 | A7 => 7
  | D0 => 8 | D1 => 9 | D2 => 10 | D3 => 11 | D4 => 12 | D5 => 13 | D6 => 14 | D7 => 15
  | D8 => 16 | D9 => 17 | D10 => 18 | D11 => 19 | D12 => 20 | D13 => 21

/-- Mapping of Nucleo pin number to GPIO port. -/
def g_GPIO_port : List GPIO_Port :=
  [GPIOA, GPIOA, GPIOA, GPIOA,
   GPIOA, GPIOA, GPIOA, GPIOA,
   GPIOA, GPIOA, GPIOA, GPIOB,
   GPIOB, GPIOB, GPIOB, GPIOC,
   GPIOC, GPIOA, GPIOA, GPIOB,
   GPIOB, GPIOB]

/-- Mapping of Nucleo pin number to GPIO pin. -/
def g_GPIO_pin : List ℕ :=
  [0, 1, 3, 4,
   5, 6, 7, 2,
   10, 9, 12, 0,
   7, 6, 1, 14,
   15, 8, 11, 5,
   4, 3]

/-- The table read `g_GPIO_port[pin]`. -/
def portOf (pin : EE14Lib_Pin) : GPIO_Port := g_GPIO_port.getD pin.toNat GPIOH

/-- The table read `g_GPIO_pin[pin]`. -/
def offsetOf (pin : EE14Lib_Pin) : ℕ := g_GPIO_pin.getD pin.toNat 0

/-- Enables a GPIO port by setting its bit in the RCC clock enable register. -/
def gpio_enable_port (K : CMSIS) (gpio : GPIO_Port) (s : Hw) : Hw :=
  let field : ℕ :=
    if gpio = GPIOA then u32 K.RCC_AHB2ENR_GPIOAEN
    else if gpio = GPIOB then u32 K.RCC_AHB2ENR_GPIOBEN
    else if gpio = GPIOC then u32 K.RCC_AHB2ENR_GPIOCEN
    else u32 K.RCC_AHB2ENR_GPIOHEN
  { s with RCC_AHB2ENR := u32 (s.RCC_AHB2ENR ||| field) }

/-- Configure the direction of a GPIO pin. -/
def gpio_config_mode (K : CMSIS) (pin : EE14Lib_Pin) (mode : ℕ) (s : Hw) : EE14Lib_Err × Hw :=
  let port := portOf pin
  let pin_offset := offsetOf pin
  if mode &&& not32 0b11 ≠ 0 then (EE14Lib_ERR_INVALID_CONFIG, s)
  else
    let s := gpio_enable_port K port s
    let s := s.modifyPort port fun g =>
      { g with MODER := u32 (g.MODER &&& not32 (shl32 0b11 (pin_offset * 2))) }
    let s := s.modifyPort port fun g =>
      { g with MODER := u32 (g.MODER ||| shl32 mode (pin_offset * 2)) }
    (EE14Lib_Err_OK, s)

/-- Configure the pull-up mode of a GPIO pin. -/
def gpio_config_pullup (pin : EE14Lib_Pin) (mode : ℕ) (s : Hw) : EE14Lib_Err × Hw :=
  let port := portOf pin
  let pin_offset := offsetOf pin
  if mode &&& not32 0b11 ≠ 0 then (EE14Lib_ERR_INVALID_CONFIG, s)
  else
    let s := s.modifyPort port fun g =>
      { g with PUPDR := u32 (g.PUPDR &&& not32 (shl32 0b11 (pin_offset * 2))) }
    let s := s.modifyPort port fun g =>
      { g with PUPDR := u32 (g.PUPDR ||| shl32 mode (pin_offset * 2)) }
    (EE14Lib_Err_OK, s)

/-- Configure the output type of a GPIO pin. -/
def gpio_config_otype (pin : EE14Lib_Pin) (otype : ℕ) (s : Hw) : EE14Lib_Err × Hw :=
  let port := portOf pin
  let pin_offset := offsetOf pin
  if otype &&& not32 0b1 ≠ 0 then (EE14Lib_ERR_INVALID_CONFIG, s)
  else
    let s := s.modifyPort port fun g =>
      { g with OTYPER := u32 (g.OTYPER &&& not32 (shl32 0b1 pin_offset)) }
    let s := s.modifyPort port fun g =>
      { g with OTYPER := u32 (g.OTYPER ||| shl32 otype pin_offset) }
    (EE14Lib_Err_OK, s)

/-- Configure the output speed of a GPIO pin. -/
def gpio_config_ospeed (pin : EE14Lib_Pin) (ospeed : ℕ) (s : Hw) : EE14Lib_Err × Hw :=
  let port := portOf pin
  let pin_offset := offsetOf pin
  if ospeed &&& not32 0b11 ≠ 0 then (EE14Lib_ERR_INVALID_CONFIG, s)
  else
    let s := s.modifyPort port fun g =>
      { g with OSPEEDR := u32 (g.OSPEEDR &&& not32 (shl32 0b11 (pin_offset * 2))) }
    let s := s.modifyPort port fun g =>
      { g with OSPEEDR := u32 (g.OSPEEDR ||| shl32 ospeed (pin_offset * 2)) }
    (EE14Lib_Err_OK, s)

/-- The statement `port->AFR[idx] = f (port->AFR[idx])`; `none` when `idx` is outside
the two-element array. -/
def Hw.modifyAFR (s : Hw) (port : GPIO_Port) (idx : ℕ) (f : ℕ → ℕ) : Option Hw :=
  match (s.ports port).readAFR idx with
  | none => none
  | some r =>
    match (s.ports port).writeAFR idx (f r) with
    | none => none
    | some g => some { s with ports := Function.update s.ports port g }

/-- Configure a GPIO pin for an alternate function.  The result is `none` when the
`AFR` array is indexed out of bounds. -/
def gpio_config_alternate_function (K : CMSIS) (pin : EE14Lib_Pin) (function : ℕ) (s : Hw) :
    Option (EE14Lib_Err × Hw) :=
  if function > 15 then some (EE14Lib_ERR_INVALID_CONFIG, s)
  else
    let port := portOf pin
    let pin_offset := offsetOf pin
    let s := gpio_enable_port K port s
    let s := s.modifyPort port fun g =>
      { g with MODER := u32 (g.MODER &&& not32 (shl32 0b11 (pin_offset * 2))) }
    let s := s.modifyPort port fun g =>
      { g with MODER := u32 (g.MODER ||| shl32 0b10 (pin_offset * 2)) }
    let afr_offset := u32 (pin_offset * 4)
    match s.modifyAFR port (afr_offset >>> 5)
        (fun r => u32 (r &&& not32 (shl32 0xF (0x1F &&& afr_offset)))) with
    | none => none
    | some s =>
      match s.modifyAFR port (afr_offset >>> 5)
          (fun r => u32 (r ||| shl32 function (0x1F &&& afr_offset))) with
      | none => none
      | some s => some (EE14Lib_Err_OK, s)

/-! ## `dac.h` and `dac.c` -/

/-- Full-scale value written to the DAC (`dac.h`). -/
def MAX_DAC : ℕ := 4000

/-- Samples per period (`dac.h`). -/
def NUM_SAMPLES : ℕ := 100

/-- The board clock declared in `dac.h`. -/
def BOARD_CLOCK : ℕ := 40000000

/-- The value of an `int` expression, wrapped to 32-bit two's complement. -/
def wrapInt32 (x : ℤ) : ℤ := (x + 2 ^ 31) % 2 ^ 32 - 2 ^ 31

/-- C division of two `int` values: truncating, undefined for a zero divisor. -/
def cdiv (a b : ℤ) : Option ℤ :=
  if b = 0 then none else some (wrapInt32 (Int.tdiv a b))

/-- Conversion of an `int` to `uint16_t`. -/
def toU16 (x : ℤ) : ℕ := (x % 2 ^ 16).toNat

/-- Conversion of an `int` to a 32-bit unsigned register value. -/
def toU32 (x : ℤ) : ℕ := (x % 2 ^ 32).toNat

/-- Initializes TIM6 to act as DAC trigger source. -/
def clock_init (K : CMSIS) (freq : ℤ) (s : Hw) : Option Hw :=
  let s := { s with RCC_APB1ENR1 := u32 (s.RCC_APB1ENR1 ||| u32 K.RCC_APB1ENR1_TIM6EN) }
  let freq := wrapInt32 (freq * 100)
  match cdiv 4000000 (wrapInt32 (freq * 65535)) with
  | none => none
  | some q =>
    let psc : ℕ := toU16 q
    let s := { s with TIM6_PSC := u32 psc }
    match cdiv 4000000 (wrapInt32 (freq * wrapInt32 ((psc : ℤ) + 1))) with
    | none => none
    | some q2 =>
      let s := { s with TIM6_ARR := toU32 (wrapInt32 (q2 - 1)) }
      let s := { s with TIM6_DIER := u32 (s.TIM6_DIER ||| u32 K.TIM_DIER_UDE) }
      let s := { s with TIM6_CR2 := u32 (s.TIM6_CR2 &&& not32 K.TIM_CR2_MMS_Msk) }
      let s := { s with TIM6_CR2 := u32 (s.TIM6_CR2 ||| u32 K.TIM_CR2_MMS_1) }
      some { s with TIM6_CR1 := u32 (s.TIM6_CR1 ||| u32 K.TIM_CR1_CEN) }

/-- Adjusts the TIM6 frequency while running. -/
def clock_set (K : CMSIS) (freq : ℤ) (s : Hw) : Option Hw :=
  let s := { s with TIM6_CR1 := u32 (s.TIM6_CR1 &&& not32 K.TIM_CR1_CEN_Msk) }
  let freq := wrapInt32 (freq * 100)
  match cdiv 40000000 (wrapInt32 (freq * 65535)) with
  | none => none
  | some q =>
    let psc : ℕ := toU16 (wrapInt32 (q - 1))
    let s := { s with TIM6_PSC := u32 psc }
    match cdiv 40000000 (wrapInt32 (freq * wrapInt32 ((psc : ℤ) + 1))) with
    | none => none
    | some q2 =>
      let s := { s with TIM6_ARR := toU32 (wrapInt32 (q2 - 1)) }
      some { s with TIM6_CR1 := u32 (s.TIM6_CR1 ||| u32 K.TIM_CR1_CEN) }

/-- The overflow rate `timer_clock / ((PSC + 1) * (ARR + 1))` of TIM6. -/
def overflow_rate (timer_clock : ℕ) (s : Hw) : ℕ :=
  timer_clock / ((s.TIM6_PSC + 1) * (s.TIM6_ARR + 1))

/-- Modelled from the spec: one timer trigger of the streaming output engine, which is
hardware and not code of the sources.  Section 4.2: once armed, "hardware then
autonomously copies the next table entry to the output register on every timer trigger,
wrapping to index 0 after the last entry"; while idle nothing moves.  `dma_init`
programs the channel with `sin_table` as memory source, `DAC1->DHR12R1` as destination
and `CNDTR = 100` ("sample num to send") in circular mode: `CNDTR` counts the entries
still to send, so the next entry is the one at index `NUM_SAMPLES - CNDTR`, and after
the last entry the counter starts again at `NUM_SAMPLES`. -/
def dma_trigger (K : CMSIS) (sin_table : List ℕ) (s : Hw) : Hw :=
  if s.DMA1_Channel3_CCR &&& u32 K.DMA_CCR_EN = 0 then s
  else if s.DMA1_Channel3_CNDTR = 0 ∨ NUM_SAMPLES < s.DMA1_Channel3_CNDTR then s
  else
    { s with
      DAC1_DHR12R1 := u32 (sin_table.getD (NUM_SAMPLES - s.DMA1_Channel3_CNDTR) 0)
      DMA1_Channel3_CNDTR :=
        if s.DMA1_Channel3_CNDTR = 1 then NUM_SAMPLES else s.DMA1_Channel3_CNDTR - 1 }

/-- Modelled from the spec: `delay` of `ee14lib` is not among the sources.  Section 4.2
describes the horn as "arm(), wait fixed duration, disarm()": the call performs no
register store of its own, and while it waits the hardware goes on, so the register
file after the call is the one reached by the timer triggers that fire during the wait.
Their number `triggers` is given by the environment. -/
def delay (K : CMSIS) (sin_table : List ℕ) (triggers : ℕ) (_ms : ℕ) (s : Hw) : Hw :=
  Nat.iterate (dma_trigger K sin_table) triggers s

/-- The first statement of `trigger_horn`: `DMA1_Channel3->CCR |= DMA_CCR_EN`. -/
def trigger_horn_arm (K : CMSIS) (s : Hw) : Hw :=
  { s with DMA1_Channel3_CCR := u32 (s.DMA1_Channel3_CCR ||| u32 K.DMA_CCR_EN) }

/-- The last statement of `trigger_horn`: `DMA1_Channel3->CCR &= ~(DMA_CCR_EN)`. -/
def trigger_horn_disarm (K : CMSIS) (s : Hw) : Hw :=
  { s with DMA1_Channel3_CCR := u32 (s.DMA1_Channel3_CCR &&& not32 K.DMA_CCR_EN) }

/-- Enable the DMA to create a honk for 200 ms.  `sin_table` is the table in memory and
`triggers` the number of timer triggers that fire during the wait. -/
def trigger_horn (K : CMSIS) (sin_table : List ℕ) (triggers : ℕ) (s : Hw) : Hw :=
  let s := trigger_horn_arm K s
  let s := delay K sin_table triggers 200 s
  trigger_horn_disarm K s

/-- The register file as `dma_init` leaves the transfer counter: every register zero
and `DMA1_Channel3->CNDTR = 100`. -/
def Hw.programmed : Hw := { Hw.zero with DMA1_Channel3_CNDTR := 100 }

/-- Conversion of a floating value to `uint16_t`: the fractional part is discarded;
undefined (`none`) when the integral part is not representable. -/
def toUint16 {α : Type} [LinearOrderedField α] [FloorRing α] (x : α) : Option ℕ :=
  if -1 < x ∧ x < 65536 then some ⌊x⌋₊ else none

/-- The right-hand side `MAX_DAC / 2 * (sin (3.14159 / 50 * i) + 1)` of the loop body,
over an ordered field `α` standing for `double` and a sine function on it. -/
def sin_value {α : Type} [LinearOrderedField α] [FloorRing α] (sin : α → α) (i : ℕ) : α :=
  ((MAX_DAC / 2 : ℕ) : α) * (sin (3.14159 / 50 * (i : α)) + 1)

/-- Populate the sine table: the loop `for (i = 0; i < NUM_SAMPLES; i++)` storing
`temp` into `sin_table[i]`. -/
def create_sin_table {α : Type} [LinearOrderedField α] [FloorRing α] (sin : α → α)
    (sin_table : List ℕ) : Option (List ℕ) :=
  (List.range NUM_SAMPLES).foldlM
    (fun tbl i => (toUint16 (sin_value sin i)).map fun temp => tbl.set i temp)
    sin_table

/-- The specification's formula `round((full_scale/2) × (sin(π·i/(table_length/2)) + 1))`. -/
noncomputable def spec_sample (i : ℕ) : ℤ :=
  round (((MAX_DAC : ℝ) / 2) * (Real.sin (Real.pi * (i : ℝ) / ((NUM_SAMPLES : ℝ) / 2)) + 1))

/-- The clock-enable mask of a port in `RCC->AHB2ENR`, by the naming of the device
header (`RCC_AHB2ENR_GPIOxEN` belongs to `GPIOx`). -/
def clockEnableBit (K : CMSIS) : GPIO_Port → ℕ
  | GPIOA => K.RCC_AHB2ENR_GPIOAEN
  | GPIOB => K.RCC_AHB2ENR_GPIOBEN
  | GPIOC => K.RCC_AHB2ENR_GPIOCEN
  | GPIOH => K.RCC_AHB2ENR_GPIOHEN

/-- The 4-bit alternate-function field of pin number `j` of a port: in `AFR[0]` at bit
`4 * j` for `j` in 0..7 and in `AFR[1]` at bit `4 * (j - 8)` for `j` in 8..15. -/
def afrField (g : GPIO_TypeDef) (j : ℕ) : ℕ :=
  if j < 8 then getField g.AFR0 4 (4 * j) else getField g.AFR1 4 (4 * (j - 8))

/-! ## `car.h`: pin assignment of the motor driver and the DAC -/

/-- Left motor enable (`car.h`). -/
def L_ENABLE : EE14Lib_Pin := D9

/-- Right motor enable (`car.h`). -/
def R_ENABLE : EE14Lib_Pin := D10

/-- Left motor direction logic 1 (`car.h`). -/
def L_LOGIC_1 : EE14Lib_Pin := A0

/-- Left motor direction logic 2 (`car.h`). -/
def L_LOGIC_2 : EE14Lib_Pin := A1

/-- Right motor direction logic 1 (`car.h`). -/
def R_LOGIC_1 : EE14Lib_Pin := A2

/-- Right motor direction logic 2 (`car.h`). -/
def R_LOGIC_2 : EE14Lib_Pin := A4

/-- The DAC output pin (`car.h`). -/
def DAC_PIN : EE14Lib_Pin := A3

/-! ## Bit-level lemmas -/

theorem testBit_u32 (x b : ℕ) : (u32 x).testBit b = (decide (b < 32) && x.testBit b) := by
  unfold u32
  exact Nat.testBit_mod_two_pow x 32 b

theorem testBit_shl32 (x n b : ℕ) :
    (shl32 x n).testBit b = (decide (b < 32) && (decide (n ≤ b) && x.testBit (b - n))) := by
  unfold shl32
  rw [Nat.testBit_mod_two_pow, Nat.testBit_shiftLeft]

theorem testBit_not32 (x b : ℕ) :
    (not32 x).testBit b = (decide (b < 32) && !x.testBit b) := by
  unfold not32
  rw [Nat.testBit_xor, Nat.testBit_two_pow_sub_one, Nat.testBit_mod_two_pow]
  by_cases h : b < 32 <;> simp [h]

theorem testBit_of_lt_two_pow {x w j : ℕ} (hx : x < 2 ^ w) (hj : w ≤ j) : x.testBit j = false :=
  Nat.testBit_lt_two_pow (lt_of_lt_of_le hx (Nat.pow_le_pow_right (by norm_num) hj))

theorem testBit_getField (r w sh i : ℕ) :
    (getField r w sh).testBit i = (decide (i < w) && r.testBit (sh + i)) := by
  unfold getField
  rw [Nat.testBit_mod_two_pow, Nat.testBit_shiftRight]

/-- Bits of a register after the read-modify-write pair `r &= ~(mask << sh); r |= val << sh`. -/
theorem testBit_rmw (w r val sh b : ℕ) (hv : val < 2 ^ w) :
    (u32 (u32 (r &&& not32 (shl32 (2 ^ w - 1) sh)) ||| shl32 val sh)).testBit b =
      (decide (b < 32) && (if sh ≤ b ∧ b < sh + w then val.testBit (b - sh) else r.testBit b)) := by
  simp only [testBit_u32, Nat.testBit_or, Nat.testBit_and, testBit_not32, testBit_shl32,
    Nat.testBit_two_pow_sub_one]
  by_cases h32 : b < 32
  · by_cases h1 : sh ≤ b
    · by_cases h2 : b < sh + w
      · have h3 : b - sh < w := by omega
        simp [h32, h1, h2, h3]
      · have h3 : ¬ b - sh < w := by omega
        have h4 : val.testBit (b - sh) = false := testBit_of_lt_two_pow hv (by omega)
        simp [h32, h1, h2, h3, h4]
    · simp [h32, h1]
  · simp [h32]

theorem getField_rmw_same (w r val sh : ℕ) (hv : val < 2 ^ w) (h32 : sh + w ≤ 32) :
    getField (u32 (u32 (r &&& not32 (shl32 (2 ^ w - 1) sh)) ||| shl32 val sh)) w sh = val := by
  apply Nat.eq_of_testBit_eq
  intro i
  rw [testBit_getField, testBit_rmw w r val sh (sh + i) hv]
  by_cases hi : i < w
  · have h1 : sh + i < 32 := by omega
    have h2 : sh + i < sh + w := by omega
    simp [hi, h1, h2]
  · rw [testBit_of_lt_two_pow hv (by omega : w ≤ i)]
    simp [hi]

theorem getField_rmw_other (w r val sh w' sh' : ℕ) (hv : val < 2 ^ w)
    (hdisj : sh' + w' ≤ sh ∨ sh + w ≤ sh') (h32 : sh' + w' ≤ 32) :
    getField (u32 (u32 (r &&& not32 (shl32 (2 ^ w - 1) sh)) ||| shl32 val sh)) w' sh' =
      getField r w' sh' := by
  apply Nat.eq_of_testBit_eq
  intro i
  rw [testBit_getField, testBit_getField, testBit_rmw w r val sh (sh' + i) hv]
  by_cases hi : i < w'
  · have h1 : sh' + i < 32 := by omega
    have h2 : ¬ (sh ≤ sh' + i ∧ sh' + i < sh + w) := by omega
    simp [hi, h1, h2]
  · simp [hi]

theorem rmw_idem (w r val sh : ℕ) (hv : val < 2 ^ w) :
    u32 (u32 (u32 (u32 (r &&& not32 (shl32 (2 ^ w - 1) sh)) ||| shl32 val sh) &&&
      not32 (shl32 (2 ^ w - 1) sh)) ||| shl32 val sh) =
    u32 (u32 (r &&& not32 (shl32 (2 ^ w - 1) sh)) ||| shl32 val sh) := by
  apply Nat.eq_of_testBit_eq
  intro b
  rw [testBit_rmw w _ val sh b hv, testBit_rmw w r val sh b hv]
  by_cases h : sh ≤ b ∧ b < sh + w <;> simp [h]

theorem and_not32_mask (w m : ℕ) (hm : m < 2 ^ 32) :
    m &&& not32 (2 ^ w - 1) = (m >>> w) <<< w := by
  apply Nat.eq_of_testBit_eq
  intro b
  rw [Nat.testBit_and, testBit_not32, Nat.testBit_two_pow_sub_one, Nat.testBit_shiftLeft,
    Nat.testBit_shiftRight]
  by_cases h32 : b < 32
  · by_cases hb : w ≤ b
    · have : w + (b - w) = b := by omega
      have h2 : ¬ b < w := by omega
      simp [h32, hb, this, h2]
    · have h2 : b < w := by omega
      simp [h32, hb, h2]
  · rw [testBit_of_lt_two_pow hm (by omega : 32 ≤ b)]
    by_cases hb : w ≤ b
    · have : w + (b - w) = b := by omega
      rw [this, testBit_of_lt_two_pow hm (by omega : 32 ≤ b)]
      simp
    · simp [hb]

/-- The guard `v & ~mask` of the configuration functions fires exactly on values that do
not fit the `w`-bit field. -/
theorem guard_ne_zero_iff (w v : ℕ) (hv : v < 2 ^ 32) :
    v &&& not32 (2 ^ w - 1) ≠ 0 ↔ 2 ^ w ≤ v := by
  rw [and_not32_mask w v hv, Nat.shiftLeft_eq, Nat.shiftRight_eq_div_pow]
  have hpos : 0 < 2 ^ w := Nat.two_pow_pos w
  constructor
  · intro h
    by_contra hlt
    exact h (by rw [Nat.div_eq_of_lt (by omega)]; simp)
  · intro h hz
    have h1 : 1 ≤ v / 2 ^ w := (Nat.one_le_div_iff hpos).2 h
    have h2 : v / 2 ^ w = 0 := by
      rcases Nat.mul_eq_zero.1 hz with h3 | h3
      · exact h3
      · omega
    omega

/-! ## The pin tables -/

theorem offsetOf_le (pin : EE14Lib_Pin) : offsetOf pin ≤ 15 := by
  cases pin <;> decide

theorem toNat_lt_length (pin : EE14Lib_Pin) :
    pin.toNat < g_GPIO_port.length ∧ pin.toNat < g_GPIO_pin.length := by
  cases pin <;> decide

theorem enable_field_eq (K : CMSIS) (gpio : GPIO_Port) :
    (if gpio = GPIOA then u32 K.RCC_AHB2ENR_GPIOAEN
      else if gpio = GPIOB then u32 K.RCC_AHB2ENR_GPIOBEN
      else if gpio = GPIOC then u32 K.RCC_AHB2ENR_GPIOCEN
      else u32 K.RCC_AHB2ENR_GPIOHEN) = u32 (clockEnableBit K gpio) := by
  cases gpio <;> simp [clockEnableBit]

/-! ## Unfolding the configuration functions -/

theorem gpio_config_mode_valid (K : CMSIS) (pin : EE14Lib_Pin) (v : ℕ) (s : Hw)
    (h : v &&& not32 3 = 0) :
    gpio_config_mode K pin v s = (EE14Lib_Err_OK,
      { s with
        ports := Function.update s.ports (portOf pin)
          { s.ports (portOf pin) with
            MODER := u32 (u32 ((s.ports (portOf pin)).MODER &&&
              not32 (shl32 3 (offsetOf pin * 2))) ||| shl32 v (offsetOf pin * 2)) }
        RCC_AHB2ENR := u32 (s.RCC_AHB2ENR ||| u32 (clockEnableBit K (portOf pin))) }) := by
  simp [gpio_config_mode, h, Hw.modifyPort, gpio_enable_port, enable_field_eq]

theorem gpio_config_mode_invalid (K : CMSIS) (pin : EE14Lib_Pin) (v : ℕ) (s : Hw)
    (h : v &&& not32 3 ≠ 0) :
    gpio_config_mode K pin v s = (EE14Lib_ERR_INVALID_CONFIG, s) := by
  simp [gpio_config_mode, h]

theorem gpio_config_pullup_valid (pin : EE14Lib_Pin) (v : ℕ) (s : Hw)
    (h : v &&& not32 3 = 0) :
    gpio_config_pullup pin v s = (EE14Lib_Err_OK,
      { s with
        ports := Function.update s.ports (portOf pin)
          { s.ports (portOf pin) with
            PUPDR := u32 (u32 ((s.ports (portOf pin)).PUPDR &&&
              not32 (shl32 3 (offsetOf pin * 2))) ||| shl32 v (offsetOf pin * 2)) } }) := by
  simp [gpio_config_pullup, h, Hw.modifyPort]

theorem gpio_config_pullup_invalid (pin : EE14Lib_Pin) (v : ℕ) (s : Hw)
    (h : v &&& not32 3 ≠ 0) :
    gpio_config_pullup pin v s = (EE14Lib_ERR_INVALID_CONFIG, s) := by
  simp [gpio_config_pullup, h]

theorem gpio_config_otype_valid (pin : EE14Lib_Pin) (v : ℕ) (s : Hw)
    (h : v &&& not32 1 = 0) :
    gpio_config_otype pin v s = (EE14Lib_Err_OK,
      { s with
        ports := Function.update s.ports (portOf pin)
          { s.ports (portOf pin) with
            OTYPER := u32 (u32 ((s.ports (portOf pin)).OTYPER &&&
              not32 (shl32 1 (offsetOf pin))) ||| shl32 v (offsetOf pin)) } }) := by
  simp [gpio_config_otype, h, Hw.modifyPort]

theorem gpio_config_otype_invalid (pin : EE14Lib_Pin) (v : ℕ) (s : Hw)
    (h : v &&& not32 1 ≠ 0) :
    gpio_config_otype pin v s = (EE14Lib_ERR_INVALID_CONFIG, s) := by
  simp [gpio_config_otype, h]

theorem gpio_config_ospeed_valid (pin : EE14Lib_Pin) (v : ℕ) (s : Hw)
    (h : v &&& not32 3 = 0) :
    gpio_config_ospeed pin v s = (EE14Lib_Err_OK,
      { s with
        ports := Function.update s.ports (portOf pin)
          { s.ports (portOf pin) with
            OSPEEDR := u32 (u32 ((s.ports (portOf pin)).OSPEEDR &&&
              not32 (shl32 3 (offsetOf pin * 2))) ||| shl32 v (offsetOf pin * 2)) } }) := by
  simp [gpio_config_ospeed, h, Hw.modifyPort]

theorem gpio_config_ospeed_invalid (pin : EE14Lib_Pin) (v : ℕ) (s : Hw)
    (h : v &&& not32 3 ≠ 0) :
    gpio_config_ospeed pin v s = (EE14Lib_ERR_INVALID_CONFIG, s) := by
  simp [gpio_config_ospeed, h]

theorem afr_index (o : ℕ) (ho : o ≤ 15) : u32 (o * 4) >>> 5 = o / 8 := by
  revert o
  decide

theorem afr_shift (o : ℕ) (ho : o ≤ 15) : 0x1F &&& u32 (o * 4) = 4 * (o % 8) := by
  revert o
  decide

theorem gpio_config_alternate_function_invalid (K : CMSIS) (pin : EE14Lib_Pin) (fn : ℕ)
    (s : Hw) (h : 15 < fn) :
    gpio_config_alternate_function K pin fn s = some (EE14Lib_ERR_INVALID_CONFIG, s) := by
  simp [gpio_config_alternate_function, h]

theorem gpio_config_alternate_function_valid (K : CMSIS) (pin : EE14Lib_Pin) (fn : ℕ)
    (s : Hw) (h : fn ≤ 15) :
    gpio_config_alternate_function K pin fn s = some (EE14Lib_Err_OK,
      { s with
        ports := Function.update s.ports (portOf pin)
          (if offsetOf pin < 8 then
            { s.ports (portOf pin) with
              MODER := u32 (u32 ((s.ports (portOf pin)).MODER &&&
                not32 (shl32 3 (offsetOf pin * 2))) ||| shl32 2 (offsetOf pin * 2))
              AFR0 := u32 (u32 ((s.ports (portOf pin)).AFR0 &&&
                not32 (shl32 15 (4 * (offsetOf pin % 8)))) ||| shl32 fn (4 * (offsetOf pin % 8))) }
          else
            { s.ports (portOf pin) with
              MODER := u32 (u32 ((s.ports (portOf pin)).MODER &&&
                not32 (shl32 3 (offsetOf pin * 2))) ||| shl32 2 (offsetOf pin * 2))
              AFR1 := u32 (u32 ((s.ports (portOf pin)).AFR1 &&&
                not32 (shl32 15 (4 * (offsetOf pin % 8)))) ||| shl32 fn (4 * (offsetOf pin % 8))) })
        RCC_AHB2ENR := u32 (s.RCC_AHB2ENR ||| u32 (clockEnableBit K (portOf pin))) }) := by
  have ho := offsetOf_le pin
  have hidx := afr_index (offsetOf pin) ho
  have hsh := afr_shift (offsetOf pin) ho
  have hfn : ¬ fn > 15 := by omega
  by_cases h8 : offsetOf pin < 8
  · have h0 : offsetOf pin / 8 = 0 := by omega
    simp [gpio_config_alternate_function, hfn, hidx, hsh, h0, h8, Hw.modifyPort, Hw.modifyAFR,
      GPIO_TypeDef.readAFR, GPIO_TypeDef.writeAFR, gpio_enable_port, enable_field_eq]
  · have h1 : offsetOf pin / 8 = 1 := by omega
    simp [gpio_config_alternate_function, hfn, hidx, hsh, h1, h8, Hw.modifyPort, Hw.modifyAFR,
      GPIO_TypeDef.readAFR, GPIO_TypeDef.writeAFR, gpio_enable_port, enable_field_eq]

theorem guard2_iff (v : ℕ) (hv : v < 2 ^ 32) : v &&& not32 3 ≠ 0 ↔ 3 < v := by
  have h := guard_ne_zero_iff 2 v hv
  norm_num at h
  rw [← ne_eq] at h
  rw [h]
  omega

theorem guard1_iff (v : ℕ) (hv : v < 2 ^ 32) : v &&& not32 1 ≠ 0 ↔ 1 < v := by
  have h := guard_ne_zero_iff 1 v hv
  norm_num at h
  rw [← ne_eq] at h
  rw [h]
  omega

theorem or_enable_idem (a c : ℕ) : u32 (u32 (a ||| u32 c) ||| u32 c) = u32 (a ||| u32 c) := by
  apply Nat.eq_of_testBit_eq
  intro b
  simp only [testBit_u32, Nat.testBit_or]
  cases a.testBit b <;> cases c.testBit b <;> simp

theorem testBit_or_enable (a c b : ℕ) (hb : b < 32) (hc : c.testBit b = true) :
    (u32 (a ||| u32 c)).testBit b = true := by
  simp [testBit_u32, Nat.testBit_or, hb, hc]

/-! ## GPIO configuration: rejection of values that do not fit -/

/-- C1: each of the five configuration operations, called on any logical pin with any
32-bit unsigned value, returns `EE14Lib_ERR_INVALID_CONFIG` exactly when the value does
not fit its field (above 3 for mode, pull and speed, above 1 for output type, above 15
for the alternate function), and whenever it returns that error the whole register file
(all GPIO registers of every port and `RCC->AHB2ENR` included) is the one from before
the call. -/
theorem gpio_config_rejects_exactly_oversized (K : CMSIS) (pin : EE14Lib_Pin) (v : ℕ)
    (hv : v < 2 ^ 32) (s : Hw) :
    (((gpio_config_mode K pin v s).1 = EE14Lib_ERR_INVALID_CONFIG ↔ 3 < v) ∧
      ((gpio_config_mode K pin v s).1 = EE14Lib_ERR_INVALID_CONFIG →
        (gpio_config_mode K pin v s).2 = s)) ∧
    (((gpio_config_pullup pin v s).1 = EE14Lib_ERR_INVALID_CONFIG ↔ 3 < v) ∧
      ((gpio_config_pullup pin v s).1 = EE14Lib_ERR_INVALID_CONFIG →
        (gpio_config_pullup pin v s).2 = s)) ∧
    (((gpio_config_otype pin v s).1 = EE14Lib_ERR_INVALID_CONFIG ↔ 1 < v) ∧
      ((gpio_config_otype pin v s).1 = EE14Lib_ERR_INVALID_CONFIG →
        (gpio_config_otype pin v s).2 = s)) ∧
    (((gpio_config_ospeed pin v s).1 = EE14Lib_ERR_INVALID_CONFIG ↔ 3 < v) ∧
      ((gpio_config_ospeed pin v s).1 = EE14Lib_ERR_INVALID_CONFIG →
        (gpio_config_ospeed pin v s).2 = s)) ∧
    (∃ r, gpio_config_alternate_function K pin v s = some r ∧
      (r.1 = EE14Lib_ERR_INVALID_CONFIG ↔ 15 < v) ∧
      (r.1 = EE14Lib_ERR_INVALID_CONFIG → r.2 = s)) := by
  have g2 := guard2_iff v hv
  have g1 := guard1_iff v hv
  refine ⟨?_, ?_, ?_, ?_, ?_⟩
  · by_cases h : v &&& not32 3 = 0
    · have hle : ¬ 3 < v := fun h3 => (g2.2 h3) h
      rw [gpio_config_mode_valid K pin v s h]
      simp [hle]
    · rw [gpio_config_mode_invalid K pin v s h]
      simp [g2.1 h]
  · by_cases h : v &&& not32 3 = 0
    · have hle : ¬ 3 < v := fun h3 => (g2.2 h3) h
      rw [gpio_config_pullup_valid pin v s h]
      simp [hle]
    · rw [gpio_config_pullup_invalid pin v s h]
      simp [g2.1 h]
  · by_cases h : v &&& not32 1 = 0
    · have hle : ¬ 1 < v := fun h3 => (g1.2 h3) h
      rw [gpio_config_otype_valid pin v s h]
      simp [hle]
    · rw [gpio_config_otype_invalid pin v s h]
      simp [g1.1 h]
  · by_cases h : v &&& not32 3 = 0
    · have hle : ¬ 3 < v := fun h3 => (g2.2 h3) h
      rw [gpio_config_ospeed_valid pin v s h]
      simp [hle]
    · rw [gpio_config_ospeed_invalid pin v s h]
      simp [g2.1 h]
  · by_cases h : 15 < v
    · exact ⟨_, gpio_config_alternate_function_invalid K pin v s h, by simp [h], fun _ => rfl⟩
    · refine ⟨_, gpio_config_alternate_function_valid K pin v s (by omega), ?_, ?_⟩
      · simp [h]
      · intro hc
        simp at hc

/-- Witness for C1: `gpio_config_mode(A0, 0b100)` on the all-zero register file. -/
theorem gpio_config_rejects_exactly_oversized_witness :
    (0b100 : ℕ) < 2 ^ 32 ∧
    (gpio_config_mode stm32l432xx A0 0b100 Hw.zero).1 = EE14Lib_ERR_INVALID_CONFIG ∧
    (gpio_config_mode stm32l432xx A0 0b100 Hw.zero).2 = Hw.zero :=
  have h := gpio_config_rejects_exactly_oversized stm32l432xx A0 0b100 (by norm_num) Hw.zero
  ⟨by norm_num, h.1.1.2 (by norm_num), h.1.2 (h.1.1.2 (by norm_num))⟩

/-! ## GPIO configuration: effect of a successful call -/

/-- C2: for every logical pin and every mode `m` in 0..3, `gpio_config_mode` returns
`EE14Lib_Err_OK`; afterwards the two `MODER` bits of the pin (at `2 * offset`, offset
from the pin table) hold `m`, every other bit of that `MODER` register, every other
register of that port and every register of the other ports are unchanged, the
clock-enable bit of the pin's port is set in `RCC->AHB2ENR`, and a second call with the
same arguments returns the same result and leaves the state as it was after the first. -/
theorem gpio_config_mode_sets_field (K : CMSIS) (pin : EE14Lib_Pin) (m : ℕ) (hm : m < 4)
    (s : Hw) :
    (gpio_config_mode K pin m s).1 = EE14Lib_Err_OK ∧
    getField ((gpio_config_mode K pin m s).2.ports (portOf pin)).MODER 2 (2 * offsetOf pin) = m ∧
    (∀ b, b < 32 → b ≠ 2 * offsetOf pin → b ≠ 2 * offsetOf pin + 1 →
      ((gpio_config_mode K pin m s).2.ports (portOf pin)).MODER.testBit b =
        (s.ports (portOf pin)).MODER.testBit b) ∧
    { (gpio_config_mode K pin m s).2.ports (portOf pin) with MODER := 0 } =
      { s.ports (portOf pin) with MODER := 0 } ∧
    (∀ p, p ≠ portOf pin → (gpio_config_mode K pin m s).2.ports p = s.ports p) ∧
    (∀ b, b < 32 → (clockEnableBit K (portOf pin)).testBit b = true →
      (gpio_config_mode K pin m s).2.RCC_AHB2ENR.testBit b = true) ∧
    gpio_config_mode K pin m (gpio_config_mode K pin m s).2 = gpio_config_mode K pin m s := by
  have ho := offsetOf_le pin
  have hg : m &&& not32 3 = 0 := by
    by_contra h
    have := (guard2_iff m (by omega)).1 h
    omega
  have hm2 : m < 2 ^ 2 := by norm_num; exact hm
  have hcomm : 2 * offsetOf pin = offsetOf pin * 2 := by ring
  rw [gpio_config_mode_valid K pin m s hg, hcomm]
  refine ⟨rfl, ?_, ?_, ?_, ?_, ?_, ?_⟩
  · simpa using getField_rmw_same 2 (s.ports (portOf pin)).MODER m (offsetOf pin * 2) hm2
      (by omega)
  · intro b hb h1 h2
    have h := testBit_rmw 2 (s.ports (portOf pin)).MODER m (offsetOf pin * 2) b hm2
    have hn : ¬ (offsetOf pin * 2 ≤ b ∧ b < offsetOf pin * 2 + 2) := by omega
    simp only [hn, if_false, hb, decide_True, Bool.true_and] at h
    simpa using h
  · simp
  · intro p hp
    simp [Function.update_noteq hp]
  · intro b hb hc
    exact testBit_or_enable _ _ b hb hc
  · rw [gpio_config_mode_valid K pin m _ hg]
    have h := rmw_idem 2 (s.ports (portOf pin)).MODER m (offsetOf pin * 2) hm2
    norm_num at h
    simp [or_enable_idem, h]

/-- Witness for C2: `gpio_config_mode(D8, 0b11)` (port C, offset 15, the top field). -/
theorem gpio_config_mode_sets_field_witness :
    (3 : ℕ) < 4 ∧
    (gpio_config_mode stm32l432xx D8 3 Hw.zero).1 = EE14Lib_Err_OK ∧
    getField ((gpio_config_mode stm32l432xx D8 3 Hw.zero).2.ports (portOf D8)).MODER 2
      (2 * offsetOf D8) = 3 :=
  have h := gpio_config_mode_sets_field stm32l432xx D8 3 (by norm_num) Hw.zero
  ⟨by norm_num, h.1, h.2.1⟩

/-- C9 (the code does otherwise): `gpio_config_pullup(pin, 0b11)` is not rejected.  For
every logical pin and every state it returns `EE14Lib_Err_OK` and stores the reserved
code `0b11` into the pin's `PUPDR` field. -/
theorem gpio_config_pullup_accepts_reserved (pin : EE14Lib_Pin) (s : Hw) :
    (gpio_config_pullup pin 0b11 s).1 = EE14Lib_Err_OK ∧
    getField ((gpio_config_pullup pin 0b11 s).2.ports (portOf pin)).PUPDR 2
      (2 * offsetOf pin) = 0b11 := by
  have ho := offsetOf_le pin
  have hg : 3 &&& not32 3 = 0 := by decide
  have hcomm : 2 * offsetOf pin = offsetOf pin * 2 := by ring
  rw [gpio_config_pullup_valid pin 3 s hg, hcomm]
  refine ⟨rfl, ?_⟩
  simpa using getField_rmw_same 2 (s.ports (portOf pin)).PUPDR 3 (offsetOf pin * 2)
    (by norm_num) (by omega)

/-- C8: for every logical pin and every function index `fn ≤ 15`,
`gpio_config_alternate_function` returns `EE14Lib_Err_OK` (in particular no access of
the `AFR` array is out of bounds: the computed index `afr_offset >> 5` is 0 or 1); the
pin's `MODER` field becomes `0b10`; the pin's 4-bit field of the `AFR` pair (in `AFR[0]`
at bit `4 * offset` for offsets 0..7, in `AFR[1]` at bit `4 * (offset - 8)` for offsets
8..15) becomes `fn`; every other `AFR` field and every other `MODER` field of the port
is unchanged; and the port's clock-enable bit is set. -/
theorem gpio_config_alternate_function_sets_fields (K : CMSIS) (pin : EE14Lib_Pin) (fn : ℕ)
    (hfn : fn ≤ 15) (s : Hw) :
    ∃ s', gpio_config_alternate_function K pin fn s = some (EE14Lib_Err_OK, s') ∧
      u32 (offsetOf pin * 4) >>> 5 ≤ 1 ∧
      getField (s'.ports (portOf pin)).MODER 2 (2 * offsetOf pin) = 0b10 ∧
      afrField (s'.ports (portOf pin)) (offsetOf pin) = fn ∧
      (∀ j, j < 16 → j ≠ offsetOf pin →
        afrField (s'.ports (portOf pin)) j = afrField (s.ports (portOf pin)) j) ∧
      (∀ j, j < 16 → j ≠ offsetOf pin →
        getField (s'.ports (portOf pin)).MODER 2 (2 * j) =
          getField (s.ports (portOf pin)).MODER 2 (2 * j)) ∧
      (∀ b, b < 32 → (clockEnableBit K (portOf pin)).testBit b = true →
        s'.RCC_AHB2ENR.testBit b = true) := by
  have ho := offsetOf_le pin
  have hidx := afr_index (offsetOf pin) ho
  have hfn4 : fn < 2 ^ 4 := by norm_num; omega
  have hcomm : 2 * offsetOf pin = offsetOf pin * 2 := by ring
  have hmode := getField_rmw_same 2 (s.ports (portOf pin)).MODER 2 (offsetOf pin * 2)
    (by norm_num) (by omega)
  have hmode' : ∀ j, j < 16 → j ≠ offsetOf pin →
      getField (u32 (u32 ((s.ports (portOf pin)).MODER &&& not32 (shl32 3 (offsetOf pin * 2))) |||
        shl32 2 (offsetOf pin * 2))) 2 (2 * j) = getField (s.ports (portOf pin)).MODER 2 (2 * j) := by
    intro j hj hne
    simpa using getField_rmw_other 2 (s.ports (portOf pin)).MODER 2 (offsetOf pin * 2) 2 (2 * j)
      (by norm_num) (by omega) (by omega)
  refine ⟨_, gpio_config_alternate_function_valid K pin fn s hfn, by omega, ?_⟩
  by_cases h8 : offsetOf pin < 8
  · have hmod : offsetOf pin % 8 = offsetOf pin := by omega
    have hsame := getField_rmw_same 4 (s.ports (portOf pin)).AFR0 fn (4 * offsetOf pin) hfn4
      (by omega)
    refine ⟨?_, ?_, ?_, ?_, ?_⟩
    · simpa [h8, hcomm] using hmode
    · simpa [h8, hmod, afrField] using hsame
    · intro j hj hne
      by_cases hj8 : j < 8
      · simpa [h8, hmod, afrField, hj8] using
          getField_rmw_other 4 (s.ports (portOf pin)).AFR0 fn (4 * offsetOf pin) 4 (4 * j) hfn4
            (by omega) (by omega)
      · simp [h8, afrField, hj8]
    · intro j hj hne
      simpa [h8] using hmode' j hj hne
    · intro b hb hc
      exact testBit_or_enable _ _ b hb hc
  · have hmod : 4 * (offsetOf pin % 8) = 4 * (offsetOf pin - 8) := by omega
    have hsame := getField_rmw_same 4 (s.ports (portOf pin)).AFR1 fn (4 * (offsetOf pin - 8)) hfn4
      (by omega)
    refine ⟨?_, ?_, ?_, ?_, ?_⟩
    · simpa [h8, hcomm] using hmode
    · simpa [h8, hmod, afrField] using hsame
    · intro j hj hne
      by_cases hj8 : j < 8
      · simp [h8, afrField, hj8]
      · simpa [h8, hmod, afrField, hj8] using
          getField_rmw_other 4 (s.ports (portOf pin)).AFR1 fn (4 * (offsetOf pin - 8)) 4
            (4 * (j - 8)) hfn4 (by omega) (by omega)
    · intro j hj hne
      simpa [h8] using hmode' j hj hne
    · intro b hb hc
      exact testBit_or_enable _ _ b hb hc

/-- Witness for C8: `gpio_config_alternate_function(D8, 15)` (offset 15, `AFR[1]`). -/
theorem gpio_config_alternate_function_sets_fields_witness :
    (15 : ℕ) ≤ 15 ∧
    ∃ s', gpio_config_alternate_function stm32l432xx D8 15 Hw.zero =
        some (EE14Lib_Err_OK, s') ∧
      afrField (s'.ports (portOf D8)) (offsetOf D8) = 15 :=
  have h := gpio_config_alternate_function_sets_fields stm32l432xx D8 15 (by norm_num) Hw.zero
  ⟨by norm_num, h.choose, h.choose_spec.1, h.choose_spec.2.2.2.1⟩

/-! ## The pin tables never alias two logical pins -/

theorem pin_table_injective (p q : EE14Lib_Pin) (hport : portOf p = portOf q)
    (hoff : offsetOf p = offsetOf q) : p = q := by
  cases p <;> cases q <;> first | rfl | (revert hport hoff; decide)

theorem field2_frame (r v op oq : ℕ) (hv : v < 4) (hq : oq ≤ 15) (hne : oq ≠ op) :
    getField (u32 (u32 (r &&& not32 (shl32 3 (op * 2))) ||| shl32 v (op * 2))) 2 (2 * oq) =
      getField r 2 (2 * oq) := by
  simpa using getField_rmw_other 2 r v (op * 2) 2 (2 * oq) (by norm_num; exact hv) (by omega)
    (by omega)

theorem field1_frame (r v op oq : ℕ) (hv : v < 2) (hq : oq ≤ 15) (hne : oq ≠ op) :
    getField (u32 (u32 (r &&& not32 (shl32 1 op)) ||| shl32 v op)) 1 oq = getField r 1 oq := by
  simpa using getField_rmw_other 1 r v op 1 oq (by norm_num; exact hv) (by omega) (by omega)

/-- C10: the two pin tables have 22 rows and map the 22 logical pins to pairwise
distinct (port, offset) pairs with every offset at most 15; hence for distinct logical
pins `p` and `q` a successful `gpio_config_mode`, `gpio_config_pullup`,
`gpio_config_otype` or `gpio_config_ospeed` on `p` leaves the field of `q` in `MODER`,
`PUPDR`, `OTYPER`, `OSPEEDR` unchanged; and the seven pins assigned in `car.h` occupy
seven distinct (port, offset) pairs. -/
theorem pin_fields_never_alias (K : CMSIS) :
    (g_GPIO_port.length = 22 ∧ g_GPIO_pin.length = 22) ∧
    (∀ p q : EE14Lib_Pin, portOf p = portOf q → offsetOf p = offsetOf q → p = q) ∧
    (∀ p : EE14Lib_Pin, offsetOf p ≤ 15) ∧
    (∀ p q : EE14Lib_Pin, p ≠ q → ∀ v : ℕ, v < 2 ^ 32 → ∀ s : Hw,
      ((gpio_config_mode K p v s).1 = EE14Lib_Err_OK →
        getField ((gpio_config_mode K p v s).2.ports (portOf q)).MODER 2 (2 * offsetOf q) =
          getField (s.ports (portOf q)).MODER 2 (2 * offsetOf q)) ∧
      ((gpio_config_pullup p v s).1 = EE14Lib_Err_OK →
        getField ((gpio_config_pullup p v s).2.ports (portOf q)).PUPDR 2 (2 * offsetOf q) =
          getField (s.ports (portOf q)).PUPDR 2 (2 * offsetOf q)) ∧
      ((gpio_config_otype p v s).1 = EE14Lib_Err_OK →
        getField ((gpio_config_otype p v s).2.ports (portOf q)).OTYPER 1 (offsetOf q) =
          getField (s.ports (portOf q)).OTYPER 1 (offsetOf q)) ∧
      ((gpio_config_ospeed p v s).1 = EE14Lib_Err_OK →
        getField ((gpio_config_ospeed p v s).2.ports (portOf q)).OSPEEDR 2 (2 * offsetOf q) =
          getField (s.ports (portOf q)).OSPEEDR 2 (2 * offsetOf q))) ∧
    ([L_LOGIC_1, L_LOGIC_2, R_LOGIC_1, R_LOGIC_2, L_ENABLE, R_ENABLE, DAC_PIN].map
      fun p => (portOf p, offsetOf p)).Nodup := by
  refine ⟨⟨rfl, rfl⟩, pin_table_injective, offsetOf_le, ?_, by decide⟩
  intro p q hpq v hv s
  have hq := offsetOf_le q
  have hoff : portOf q = portOf p → offsetOf q ≠ offsetOf p :=
    fun hp h => hpq (pin_table_injective p q hp.symm h.symm)
  refine ⟨?_, ?_, ?_, ?_⟩
  · intro hok
    have hg : v &&& not32 3 = 0 := by
      by_contra h
      rw [gpio_config_mode_invalid K p v s h] at hok
      cases hok
    have hv4 : v < 4 := by
      by_contra h
      exact (guard2_iff v hv).2 (by omega) hg
    rw [gpio_config_mode_valid K p v s hg]
    by_cases hp : portOf q = portOf p
    · rw [hp]
      simp only [Function.update_same]
      exact field2_frame (s.ports (portOf p)).MODER v _ _ hv4 hq (hoff hp)
    · simp [Function.update_noteq hp]
  · intro hok
    have hg : v &&& not32 3 = 0 := by
      by_contra h
      rw [gpio_config_pullup_invalid p v s h] at hok
      cases hok
    have hv4 : v < 4 := by
      by_contra h
      exact (guard2_iff v hv).2 (by omega) hg
    rw [gpio_config_pullup_valid p v s hg]
    by_cases hp : portOf q = portOf p
    · rw [hp]
      simp only [Function.update_same]
      exact field2_frame (s.ports (portOf p)).PUPDR v _ _ hv4 hq (hoff hp)
    · simp [Function.update_noteq hp]
  · intro hok
    have hg : v &&& not32 1 = 0 := by
      by_contra h
      rw [gpio_config_otype_invalid p v s h] at hok
      cases hok
    have hv2 : v < 2 := by
      by_contra h
      exact (guard1_iff v hv).2 (by omega) hg
    rw [gpio_config_otype_valid p v s hg]
    by_cases hp : portOf q = portOf p
    · rw [hp]
      simp only [Function.update_same]
      exact field1_frame (s.ports (portOf p)).OTYPER v _ _ hv2 hq (hoff hp)
    · simp [Function.update_noteq hp]
  · intro hok
    have hg : v &&& not32 3 = 0 := by
      by_contra h
      rw [gpio_config_ospeed_invalid p v s h] at hok
      cases hok
    have hv4 : v < 4 := by
      by_contra h
      exact (guard2_iff v hv).2 (by omega) hg
    rw [gpio_config_ospeed_valid p v s hg]
    by_cases hp : portOf q = portOf p
    · rw [hp]
      simp only [Function.update_same]
      exact field2_frame (s.ports (portOf p)).OSPEEDR v _ _ hv4 hq (hoff hp)
    · simp [Function.update_noteq hp]

/-- Witness for C10: configuring `L_LOGIC_1` (PA0) as output leaves the `MODER` field of
`L_LOGIC_2` (PA1, same port) as it was. -/
theorem pin_fields_never_alias_witness :
    (L_LOGIC_1 ≠ L_LOGIC_2 ∧ (1 : ℕ) < 2 ^ 32 ∧
      (gpio_config_mode stm32l432xx L_LOGIC_1 1 Hw.zero).1 = EE14Lib_Err_OK) ∧
    getField ((gpio_config_mode stm32l432xx L_LOGIC_1 1 Hw.zero).2.ports (portOf L_LOGIC_2)).MODER
        2 (2 * offsetOf L_LOGIC_2) =
      getField (Hw.zero.ports (portOf L_LOGIC_2)).MODER 2 (2 * offsetOf L_LOGIC_2) :=
  have hne : L_LOGIC_1 ≠ L_LOGIC_2 := by decide
  have hok : (gpio_config_mode stm32l432xx L_LOGIC_1 1 Hw.zero).1 = EE14Lib_Err_OK := by
    rfl
  ⟨⟨hne, by norm_num, hok⟩,
    ((pin_fields_never_alias stm32l432xx).2.2.2.1 L_LOGIC_1 L_LOGIC_2 hne 1 (by norm_num)
      Hw.zero).1 hok⟩

/-! ## TIM6 prescaler and reload arithmetic -/

set_option maxRecDepth 100000 in
theorem clock_init_arith : ∀ n : ℕ, n ≤ 400 → 1 ≤ n →
    cdiv 4000000 (wrapInt32 (wrapInt32 ((n : ℤ) * 100) * 65535)) = some 0 ∧
    cdiv 4000000 (wrapInt32 (wrapInt32 ((n : ℤ) * 100) * wrapInt32 (((toU16 0 : ℕ) : ℤ) + 1))) =
      some ((4000000 / (n * 100) : ℕ) : ℤ) ∧
    u32 (toU16 0) = 0 ∧
    toU32 (wrapInt32 (((4000000 / (n * 100) : ℕ) : ℤ) - 1)) = 4000000 / (n * 100) - 1 ∧
    BOARD_CLOCK / ((0 + 1) * (4000000 / (n * 100) - 1 + 1)) ≠ n * NUM_SAMPLES := by
  decide

set_option maxRecDepth 100000 in
theorem clock_set_arith : ∀ n : ℕ, n ≤ 400 → 1 ≤ n →
    (cdiv 40000000 (wrapInt32 (wrapInt32 ((n : ℤ) * 100) * 65535))).isSome = true ∧
    (cdiv 40000000 (wrapInt32 (wrapInt32 ((n : ℤ) * 100) * wrapInt32 (((toU16 (wrapInt32 (((cdiv 40000000 (wrapInt32 (wrapInt32 ((n : ℤ) * 100) * 65535))).getD 0) - 1))) : ℤ) + 1)))).isSome = true ∧
    ¬ (u32 (toU16 (wrapInt32 (((cdiv 40000000 (wrapInt32 (wrapInt32 ((n : ℤ) * 100) * 65535))).getD 0) - 1))) ≤ 65535 ∧ (toU32 (wrapInt32 (((cdiv 40000000 (wrapInt32 (wrapInt32 ((n : ℤ) * 100) * wrapInt32 (((toU16 (wrapInt32 (((cdiv 40000000 (wrapInt32 (wrapInt32 ((n : ℤ) * 100) * 65535))).getD 0) - 1))) : ℤ) + 1)))).getD 0) - 1))) ≤ 65535 ∧
      BOARD_CLOCK / ((u32 (toU16 (wrapInt32 (((cdiv 40000000 (wrapInt32 (wrapInt32 ((n : ℤ) * 100) * 65535))).getD 0) - 1))) + 1) * ((toU32 (wrapInt32 (((cdiv 40000000 (wrapInt32 (wrapInt32 ((n : ℤ) * 100) * wrapInt32 (((toU16 (wrapInt32 (((cdiv 40000000 (wrapInt32 (wrapInt32 ((n : ℤ) * 100) * 65535))).getD 0) - 1))) : ℤ) + 1)))).getD 0) - 1))) + 1)) = n * NUM_SAMPLES) ∧
    (7 ≤ n → u32 (toU16 (wrapInt32 (((cdiv 40000000 (wrapInt32 (wrapInt32 ((n : ℤ) * 100) * 65535))).getD 0) - 1))) = 65535 ∧ (toU32 (wrapInt32 (((cdiv 40000000 (wrapInt32 (wrapInt32 ((n : ℤ) * 100) * wrapInt32 (((toU16 (wrapInt32 (((cdiv 40000000 (wrapInt32 (wrapInt32 ((n : ℤ) * 100) * 65535))).getD 0) - 1))) : ℤ) + 1)))).getD 0) - 1))) = 4294967295) := by
  decide

theorem clock_init_regs (K : CMSIS) (f : ℤ) (s : Hw) (q q2 : ℤ)
    (h1 : cdiv 4000000 (wrapInt32 (wrapInt32 (f * 100) * 65535)) = some q)
    (h2 : cdiv 4000000 (wrapInt32 (wrapInt32 (f * 100) * wrapInt32 (((toU16 q : ℕ) : ℤ) + 1))) =
      some q2) :
    ∃ s', clock_init K f s = some s' ∧ s'.TIM6_PSC = u32 (toU16 q) ∧
      s'.TIM6_ARR = toU32 (wrapInt32 (q2 - 1)) := by
  simp only [clock_init, h1, h2]
  exact ⟨_, rfl, rfl, rfl⟩

theorem clock_set_regs (K : CMSIS) (f : ℤ) (s : Hw) (q q2 : ℤ)
    (h1 : cdiv 40000000 (wrapInt32 (wrapInt32 (f * 100) * 65535)) = some q)
    (h2 : cdiv 40000000 (wrapInt32 (wrapInt32 (f * 100) *
      wrapInt32 (((toU16 (wrapInt32 (q - 1)) : ℕ) : ℤ) + 1))) = some q2) :
    ∃ s', clock_set K f s = some s' ∧ s'.TIM6_PSC = u32 (toU16 (wrapInt32 (q - 1))) ∧
      s'.TIM6_ARR = toU32 (wrapInt32 (q2 - 1)) ∧
      s'.TIM6_CR1 = u32 (u32 (s.TIM6_CR1 &&& not32 K.TIM_CR1_CEN_Msk) ||| u32 K.TIM_CR1_CEN) := by
  simp only [clock_set, h1, h2]
  exact ⟨_, rfl, rfl, rfl, rfl⟩

/-- C5 (the code does otherwise): for every tone frequency `f` in 1..400, `clock_init f`
returns with `PSC = 0` and `ARR = 4000000 / (f * 100) - 1`: the function divides the
literal `4000000`, not the board clock `BOARD_CLOCK = 40000000` of `dac.h`, so the
overflow rate `BOARD_CLOCK / ((PSC + 1) * (ARR + 1))` is never `f * NUM_SAMPLES`. -/
theorem clock_init_overflow_rate_off (K : CMSIS) (f : ℕ) (h1 : 1 ≤ f) (h400 : f ≤ 400)
    (s : Hw) :
    ∃ s', clock_init K (f : ℤ) s = some s' ∧ s'.TIM6_PSC = 0 ∧
      s'.TIM6_ARR = 4000000 / (f * 100) - 1 ∧
      overflow_rate BOARD_CLOCK s' ≠ f * NUM_SAMPLES := by
  obtain ⟨a1, a2, a3, a4, a5⟩ := clock_init_arith f h400 h1
  obtain ⟨s', hs, hpsc, harr⟩ := clock_init_regs K (f : ℤ) s 0 _ a1 a2
  refine ⟨s', hs, hpsc.trans a3, harr.trans a4, ?_⟩
  unfold overflow_rate
  rw [hpsc, harr, a3, a4]
  exact a5

/-- Evaluation of `clock_init` at `f = 100`: `PSC = 0`, `ARR = 399`, and the overflow
rate at the 40 MHz board clock is 100000 where `f * NUM_SAMPLES` is 10000. -/
theorem clock_init_overflow_rate_off_witness :
    (1 ≤ 100 ∧ 100 ≤ 400) ∧
    ∃ s', clock_init stm32l432xx ((100 : ℕ) : ℤ) Hw.zero = some s' ∧ s'.TIM6_PSC = 0 ∧
      s'.TIM6_ARR = 399 ∧ overflow_rate BOARD_CLOCK s' = 100000 ∧
      overflow_rate BOARD_CLOCK s' ≠ 100 * NUM_SAMPLES := by
  obtain ⟨s', hs, hpsc, harr, hne⟩ :=
    clock_init_overflow_rate_off stm32l432xx 100 (by norm_num) (by norm_num) Hw.zero
  refine ⟨by norm_num, s', hs, hpsc, harr, ?_, hne⟩
  unfold overflow_rate
  rw [hpsc, harr]
  rfl

/-- C6 (the code does otherwise): for every tone frequency `f` in 1..400, `clock_set f`
returns with the counter-enable bit set, but never with `PSC ≤ 65535`, `ARR ≤ 65535` and
`BOARD_CLOCK / ((PSC + 1) * (ARR + 1)) = f * NUM_SAMPLES` together; from `f = 7` on the
quotient `40000000 / (freq * 65535)` is 0, so `psc` wraps to 65535 and the reload value
`0 - 1` is stored as `0xFFFFFFFF`. -/
theorem clock_set_breaks_relation (K : CMSIS) (f : ℕ) (h1 : 1 ≤ f) (h400 : f ≤ 400)
    (s : Hw) :
    ∃ s', clock_set K (f : ℤ) s = some s' ∧
      (∀ b, b < 32 → K.TIM_CR1_CEN.testBit b = true → s'.TIM6_CR1.testBit b = true) ∧
      ¬ (s'.TIM6_PSC ≤ 65535 ∧ s'.TIM6_ARR ≤ 65535 ∧
        overflow_rate BOARD_CLOCK s' = f * NUM_SAMPLES) ∧
      (7 ≤ f → s'.TIM6_PSC = 65535 ∧ s'.TIM6_ARR = 4294967295) := by
  obtain ⟨a1, a2, a3, a4⟩ := clock_set_arith f h400 h1
  obtain ⟨q, hq⟩ := Option.isSome_iff_exists.1 a1
  rw [hq] at a2 a3 a4
  simp only [Option.getD_some] at a2 a3 a4
  obtain ⟨q2, hq2⟩ := Option.isSome_iff_exists.1 a2
  rw [hq2] at a3 a4
  simp only [Option.getD_some] at a3 a4
  obtain ⟨s', hs, hpsc, harr, hcr1⟩ := clock_set_regs K (f : ℤ) s q q2 hq hq2
  refine ⟨s', hs, ?_, ?_, ?_⟩
  · intro b hb hc
    rw [hcr1]
    exact testBit_or_enable _ _ b hb hc
  · unfold overflow_rate
    rw [hpsc, harr]
    exact a3
  · rw [hpsc, harr]
    exact a4

/-- Evaluation of `clock_set` at `f = 8`: `PSC = 65535`, `ARR = 0xFFFFFFFF`, overflow
rate 0 where `f * NUM_SAMPLES` is 800. -/
theorem clock_set_breaks_relation_witness :
    (1 ≤ 8 ∧ 8 ≤ 400) ∧
    ∃ s', clock_set stm32l432xx ((8 : ℕ) : ℤ) Hw.zero = some s' ∧ s'.TIM6_PSC = 65535 ∧
      s'.TIM6_ARR = 4294967295 ∧ overflow_rate BOARD_CLOCK s' = 0 := by
  obtain ⟨s', hs, _, _, h7⟩ :=
    clock_set_breaks_relation stm32l432xx 8 (by norm_num) (by norm_num) Hw.zero
  obtain ⟨hpsc, harr⟩ := h7 (by norm_num)
  refine ⟨by norm_num, s', hs, hpsc, harr, ?_⟩
  unfold overflow_rate
  rw [hpsc, harr]
  rfl

/-! ## The sine table -/

/-- A loop that stores `g i` into slot `i` for `i = 0, …, n - 1`. -/
theorem foldlM_set_range (f : ℕ → Option ℕ) (g : ℕ → ℕ) (n : ℕ)
    (hf : ∀ i, i < n → f i = some (g i)) (tbl : List ℕ) :
    ∃ tbl', (List.range n).foldlM (fun t i => (f i).map fun temp => t.set i temp) tbl = some tbl' ∧
      tbl'.length = tbl.length ∧
      (∀ j, j < n → j < tbl.length → tbl'[j]? = some (g j)) ∧
      (∀ j, n ≤ j → tbl'[j]? = tbl[j]?) := by
  induction n with
  | zero => exact ⟨tbl, rfl, rfl, fun j hj => absurd hj (Nat.not_lt_zero j), fun _ _ => rfl⟩
  | succ n ih =>
    obtain ⟨t1, h1, hlen, hget, hrest⟩ := ih (fun i hi => hf i (Nat.lt_succ_of_lt hi))
    refine ⟨t1.set n (g n), ?_, ?_, ?_, ?_⟩
    · rw [List.range_succ, List.foldlM_append, h1]
      simp [hf n (Nat.lt_succ_self n)]
    · rw [List.length_set, hlen]
    · intro j hj hjl
      by_cases hjn : j = n
      · subst hjn
        rw [List.getElem?_set_self (by omega)]
      · rw [List.getElem?_set_ne (fun h => hjn h.symm)]
        exact hget j (by omega) hjl
    · intro j hj
      rw [List.getElem?_set_ne (by omega)]
      exact hrest j (by omega)

theorem sin_value_real (i : ℕ) :
    sin_value Real.sin i = 2000 * (Real.sin (3.14159 / 50 * (i : ℝ)) + 1) := by
  unfold sin_value MAX_DAC
  norm_num

theorem sin_value_bounds (i : ℕ) :
    0 ≤ sin_value Real.sin i ∧ sin_value Real.sin i ≤ 4000 := by
  rw [sin_value_real]
  have h1 := Real.neg_one_le_sin (3.14159 / 50 * (i : ℝ))
  have h2 := Real.sin_le_one (3.14159 / 50 * (i : ℝ))
  constructor <;> nlinarith

theorem toUint16_sin_value (i : ℕ) :
    toUint16 (sin_value Real.sin i) = some ⌊sin_value Real.sin i⌋₊ := by
  obtain ⟨h0, h1⟩ := sin_value_bounds i
  unfold toUint16
  rw [if_pos]
  constructor <;> linarith

/-- The table after `create_sin_table`, slot by slot. -/
theorem create_sin_table_spec (tbl : List ℕ) (hlen : tbl.length = NUM_SAMPLES) :
    ∃ tbl', create_sin_table Real.sin tbl = some tbl' ∧ tbl'.length = NUM_SAMPLES ∧
      ∀ i, i < NUM_SAMPLES → tbl'[i]? = some ⌊sin_value Real.sin i⌋₊ := by
  obtain ⟨tbl', h1, h2, h3, _⟩ := foldlM_set_range (fun i => toUint16 (sin_value Real.sin i))
    (fun i => ⌊sin_value Real.sin i⌋₊) NUM_SAMPLES (fun i _ => toUint16_sin_value i) tbl
  exact ⟨tbl', h1, h2.trans hlen, fun i hi => h3 i hi (by rw [hlen]; exact hi)⟩

/-- C3: after `create_sin_table` (sine taken as the real sine) the table still has
`NUM_SAMPLES` = 100 entries, every entry `sin_table[i]`, `i < 100`, is the value
`2000 * (sin (3.14159 / 50 * i) + 1)` with its fractional part discarded, fits in 16
bits and lies in `[0, MAX_DAC]` = `[0, 4000]`, and `sin_table[0]` is `MAX_DAC / 2` =
2000. -/
theorem create_sin_table_in_range (tbl : List ℕ) (hlen : tbl.length = NUM_SAMPLES) :
    ∃ tbl', create_sin_table Real.sin tbl = some tbl' ∧ tbl'.length = NUM_SAMPLES ∧
      (∀ i : ℕ, i < 100 → ∃ v : ℕ, tbl'[i]? = some v ∧ v ≤ MAX_DAC ∧ v < 2 ^ 16 ∧
        (v : ℝ) ≤ 2000 * (Real.sin (3.14159 / 50 * (i : ℝ)) + 1) ∧
        2000 * (Real.sin (3.14159 / 50 * (i : ℝ)) + 1) < (v : ℝ) + 1) ∧
      tbl'[0]? = some (MAX_DAC / 2) ∧ MAX_DAC / 2 = 2000 := by
  obtain ⟨tbl', h1, h2, h3⟩ := create_sin_table_spec tbl hlen
  refine ⟨tbl', h1, h2, ?_, ?_, rfl⟩
  · intro i hi
    obtain ⟨h0, h4⟩ := sin_value_bounds i
    have hle : ⌊sin_value Real.sin i⌋₊ ≤ 4000 := Nat.floor_le_of_le (by exact_mod_cast h4)
    refine ⟨_, h3 i hi, hle, by omega, ?_, ?_⟩
    · rw [← sin_value_real]
      exact Nat.floor_le h0
    · rw [← sin_value_real]
      exact Nat.lt_floor_add_one _
  · rw [h3 0 (by decide)]
    have : sin_value Real.sin 0 = ((2000 : ℕ) : ℝ) := by
      rw [sin_value_real]
      simp
    rw [this, Nat.floor_natCast]
    rfl

/-- Witness for C3: the table starts as the zero-initialised array of 100 entries. -/
theorem create_sin_table_in_range_witness :
    (List.replicate 100 0).length = NUM_SAMPLES ∧
    ∃ tbl', create_sin_table Real.sin (List.replicate 100 0) = some tbl' ∧
      tbl'[0]? = some 2000 := by
  obtain ⟨tbl', h1, _, _, h0, hm⟩ := create_sin_table_in_range (List.replicate 100 0) rfl
  exact ⟨rfl, tbl', h1, by rw [h0, hm]⟩

theorem sin_sub_sin_le (x y : ℝ) : |Real.sin x - Real.sin y| ≤ |x - y| := by
  rw [Real.sin_sub_sin, abs_mul, abs_mul]
  have h1 : |Real.sin ((x - y) / 2)| ≤ |(x - y) / 2| := Real.abs_sin_le_abs
  have h2 : |Real.cos ((x + y) / 2)| ≤ 1 := Real.abs_cos_le_one _
  have h3 : |(x - y) / 2| = |x - y| / 2 := by
    rw [abs_div]
    norm_num
  have h4 : (0 : ℝ) ≤ |Real.sin ((x - y) / 2)| := abs_nonneg _
  have h5 : (0 : ℝ) ≤ |Real.cos ((x + y) / 2)| := abs_nonneg _
  have h6 : |(2 : ℝ)| = 2 := by norm_num
  rw [h6]
  rw [h3] at h1
  nlinarith

theorem spec_sample_eq (i : ℕ) :
    spec_sample i = round (2000 * (Real.sin (Real.pi * (i : ℝ) / 50) + 1)) := by
  unfold spec_sample MAX_DAC NUM_SAMPLES
  norm_num

/-- The code's sample value and the specification's ideal value differ by less than
`0.02` on the table's index range. -/
theorem sin_value_close (i : ℕ) (hi : i < 100) :
    |sin_value Real.sin i - 2000 * (Real.sin (Real.pi * (i : ℝ) / 50) + 1)| ≤ 0.02 := by
  rw [sin_value_real]
  have h := sin_sub_sin_le (3.14159 / 50 * (i : ℝ)) (Real.pi * (i : ℝ) / 50)
  have hpi1 := Real.pi_gt_d6
  have hpi2 := Real.pi_lt_d6
  have hi0 : (0 : ℝ) ≤ (i : ℝ) := Nat.cast_nonneg i
  have hi99 : (i : ℝ) ≤ 99 := by exact_mod_cast Nat.le_of_lt_succ hi
  have hd : |3.14159 / 50 * (i : ℝ) - Real.pi * (i : ℝ) / 50| ≤ 0.00000594 := by
    rw [abs_le]
    constructor <;> nlinarith
  have hs := le_trans h hd
  rw [abs_le] at hs ⊢
  constructor <;> nlinarith [hs.1, hs.2]

/-- C4 fails as stated: on the zero-initialised table and with the real sine,
`sin_table[1]` is 2125 while the nearest integer to `2000 * (sin (π / 50) + 1)` is
2126. -/
theorem sin_table_entry_one_not_rounded :
    ∃ tbl', create_sin_table Real.sin (List.replicate NUM_SAMPLES 0) = some tbl' ∧
      tbl'[1]? = some 2125 ∧ spec_sample 1 = 2126 := by
  obtain ⟨tbl', h1, _, h3⟩ := create_sin_table_spec (List.replicate NUM_SAMPLES 0)
    (List.length_replicate _ _)
  refine ⟨tbl', h1, ?_, ?_⟩
  · rw [h3 1 (by decide)]
    congr 1
    rw [Nat.floor_eq_iff (sin_value_bounds 1).1, sin_value_real]
    have hx0 : (0 : ℝ) < 3.14159 / 50 * ((1 : ℕ) : ℝ) := by norm_num
    have hx1 : (3.14159 / 50 * ((1 : ℕ) : ℝ) : ℝ) ≤ 1 := by norm_num
    have hlo := Real.sin_gt_sub_cube hx0 hx1
    have hhi := Real.sin_lt hx0
    norm_num at hlo hhi ⊢
    constructor <;> linarith
  · rw [spec_sample_eq, round_eq, Int.floor_eq_iff]
    have hpi1 := Real.pi_gt_d6
    have hpi2 := Real.pi_lt_d6
    have hx0 : (0 : ℝ) < Real.pi * ((1 : ℕ) : ℝ) / 50 := by
      have := Real.pi_pos
      simp
      linarith
    have hx1 : Real.pi * ((1 : ℕ) : ℝ) / 50 ≤ 1 := by
      simp
      linarith
    have hlo := Real.sin_gt_sub_cube hx0 hx1
    have hhi := Real.sin_lt hx0
    have hx63 : Real.pi * ((1 : ℕ) : ℝ) / 50 ≤ 0.063 := by
      simp
      linarith
    have hcube : (Real.pi * ((1 : ℕ) : ℝ) / 50) ^ 3 ≤ (0.063 : ℝ) ^ 3 :=
      pow_le_pow_left₀ (le_of_lt hx0) hx63 3
    norm_num at hcube
    push_cast
    constructor <;> linarith

/-- C4, amended: after `create_sin_table` (sine taken as the real sine) every entry
`sin_table[i]`, `i < 100`, is the integer part (floor, not the nearest integer) of
`2000 * (sin (3.14159 / 50 * i) + 1)`; it is therefore the rounded value
`round (2000 * (sin (π * i / 50) + 1))` of the specification or that value minus one. -/
theorem create_sin_table_truncates (tbl : List ℕ) (hlen : tbl.length = NUM_SAMPLES) :
    ∃ tbl', create_sin_table Real.sin tbl = some tbl' ∧
      ∀ i : ℕ, i < 100 → ∃ v : ℕ, tbl'[i]? = some v ∧
        v = ⌊(2000 : ℝ) * (Real.sin (3.14159 / 50 * (i : ℝ)) + 1)⌋₊ ∧
        ((v : ℤ) = spec_sample i ∨ (v : ℤ) = spec_sample i - 1) := by
  obtain ⟨tbl', h1, _, h3⟩ := create_sin_table_spec tbl hlen
  refine ⟨tbl', h1, ?_⟩
  intro i hi
  refine ⟨_, h3 i hi, by rw [sin_value_real], ?_⟩
  obtain ⟨h0, _⟩ := sin_value_bounds i
  have hfl := Nat.floor_le h0
  have hfu := Nat.lt_floor_add_one (sin_value Real.sin i)
  have hclose := sin_value_close i hi
  have hround := abs_sub_round (2000 * (Real.sin (Real.pi * (i : ℝ) / 50) + 1))
  rw [← spec_sample_eq] at hround
  rw [abs_le] at hclose hround
  have hup : ((⌊sin_value Real.sin i⌋₊ : ℤ) : ℝ) < ((spec_sample i + 1 : ℤ) : ℝ) := by
    push_cast
    linarith [hclose.1, hclose.2, hround.1, hround.2]
  have hdown : ((spec_sample i - 2 : ℤ) : ℝ) < ((⌊sin_value Real.sin i⌋₊ : ℤ) : ℝ) := by
    push_cast
    linarith [hclose.1, hclose.2, hround.1, hround.2]
  have hup' : (⌊sin_value Real.sin i⌋₊ : ℤ) < spec_sample i + 1 := by exact_mod_cast hup
  have hdown' : spec_sample i - 2 < (⌊sin_value Real.sin i⌋₊ : ℤ) := by exact_mod_cast hdown
  omega

/-- Witness for the amended C4 on the zero-initialised table. -/
theorem create_sin_table_truncates_witness :
    (List.replicate 100 0).length = NUM_SAMPLES ∧
    ∃ tbl', create_sin_table Real.sin (List.replicate 100 0) = some tbl' ∧
      ∃ v : ℕ, tbl'[0]? = some v ∧ ((v : ℤ) = spec_sample 0 ∨ (v : ℤ) = spec_sample 0 - 1) := by
  obtain ⟨tbl', h1, h2⟩ := create_sin_table_truncates (List.replicate 100 0) rfl
  obtain ⟨v, hv, _, hr⟩ := h2 0 (by norm_num)
  exact ⟨rfl, tbl', h1, v, hv, hr⟩

/-! ## The horn -/

theorem sin_value_zero : ⌊sin_value Real.sin 0⌋₊ = 2000 := by
  have h : sin_value Real.sin 0 = ((2000 : ℕ) : ℝ) := by
    rw [sin_value_real]
    simp
  rw [h, Nat.floor_natCast]

theorem arm_and_enable (a c : ℕ) : u32 (a ||| u32 c) &&& u32 c = u32 c := by
  apply Nat.eq_of_testBit_eq
  intro b
  simp only [Nat.testBit_and, testBit_u32, Nat.testBit_or]
  cases a.testBit b <;> cases c.testBit b <;> simp

/-- A timer trigger stores to the DAC data register and the transfer counter only. -/
theorem dma_trigger_frame (K : CMSIS) (tbl : List ℕ) (s : Hw) :
    { dma_trigger K tbl s with DAC1_DHR12R1 := 0, DMA1_Channel3_CNDTR := 0 } =
      { s with DAC1_DHR12R1 := 0, DMA1_Channel3_CNDTR := 0 } := by
  unfold dma_trigger
  split_ifs <;> rfl

theorem delay_frame (K : CMSIS) (tbl : List ℕ) (n ms : ℕ) (s : Hw) :
    { delay K tbl n ms s with DAC1_DHR12R1 := 0, DMA1_Channel3_CNDTR := 0 } =
      { s with DAC1_DHR12R1 := 0, DMA1_Channel3_CNDTR := 0 } := by
  unfold delay
  induction n with
  | zero => rfl
  | succ n ih =>
    rw [Function.iterate_succ_apply']
    exact (dma_trigger_frame K tbl _).trans ih

theorem delay_CCR (K : CMSIS) (tbl : List ℕ) (n ms : ℕ) (s : Hw) :
    (delay K tbl n ms s).DMA1_Channel3_CCR = s.DMA1_Channel3_CCR := by
  have h := congrArg Hw.DMA1_Channel3_CCR (delay_frame K tbl n ms s)
  exact h

/-- While the channel is armed, `n` triggers send `n` consecutive table entries,
starting at index `NUM_SAMPLES - CNDTR` and wrapping after the last entry. -/
theorem delay_stream (K : CMSIS) (tbl : List ℕ) (ms : ℕ) (s : Hw)
    (harm : s.DMA1_Channel3_CCR &&& u32 K.DMA_CCR_EN ≠ 0)
    (h1 : 1 ≤ s.DMA1_Channel3_CNDTR) (h2 : s.DMA1_Channel3_CNDTR ≤ NUM_SAMPLES) (n : ℕ) :
    1 ≤ (delay K tbl n ms s).DMA1_Channel3_CNDTR ∧
    (delay K tbl n ms s).DMA1_Channel3_CNDTR ≤ NUM_SAMPLES ∧
    NUM_SAMPLES - (delay K tbl n ms s).DMA1_Channel3_CNDTR =
      (NUM_SAMPLES - s.DMA1_Channel3_CNDTR + n) % NUM_SAMPLES ∧
    (1 ≤ n → (delay K tbl n ms s).DAC1_DHR12R1 =
      u32 (tbl.getD ((NUM_SAMPLES - s.DMA1_Channel3_CNDTR + n - 1) % NUM_SAMPLES) 0)) := by
  induction n with
  | zero =>
    have h0 : delay K tbl 0 ms s = s := rfl
    rw [h0]
    simp only [NUM_SAMPLES] at h2 ⊢
    refine ⟨h1, h2, by omega, fun h => absurd h (by norm_num)⟩
  | succ n ih =>
    obtain ⟨i1, i2, i3, _⟩ := ih
    have hstep : delay K tbl (n + 1) ms s = dma_trigger K tbl (delay K tbl n ms s) := by
      unfold delay
      rw [Function.iterate_succ_apply']
    have hccr := delay_CCR K tbl n ms s
    rw [hstep]
    unfold dma_trigger
    rw [if_neg (by rw [hccr]; exact harm), if_neg (by omega)]
    simp only [NUM_SAMPLES] at i1 i2 i3 h1 h2 ⊢
    refine ⟨?_, ?_, ?_, ?_⟩
    · split_ifs <;> omega
    · split_ifs <;> omega
    · split_ifs <;> omega
    · intro _
      have hidx : 100 - (delay K tbl n ms s).DMA1_Channel3_CNDTR =
          (100 - s.DMA1_Channel3_CNDTR + (n + 1) - 1) % 100 := by
        rw [i3]
        congr 1
      rw [hidx]

/-- C7 fails as stated: after `create_sin_table`, with the transfer counter at 100 as
`dma_init` programs it and one timer trigger during the wait, `trigger_horn` leaves
`sin_table[0]` = 2000 in `DAC1->DHR12R1`, which held 0 before the call, and 99 in
`DMA1_Channel3->CNDTR`, which held 100. -/
theorem trigger_horn_overwrites_dac_output :
    ∃ tbl, create_sin_table Real.sin (List.replicate NUM_SAMPLES 0) = some tbl ∧
      Hw.programmed.DAC1_DHR12R1 = 0 ∧
      (trigger_horn stm32l432xx tbl 1 Hw.programmed).DAC1_DHR12R1 = 2000 ∧
      Hw.programmed.DMA1_Channel3_CNDTR = 100 ∧
      (trigger_horn stm32l432xx tbl 1 Hw.programmed).DMA1_Channel3_CNDTR = 99 := by
  obtain ⟨tbl, h1, _, h3⟩ :=
    create_sin_table_spec (List.replicate NUM_SAMPLES 0) (List.length_replicate _ _)
  refine ⟨tbl, h1, rfl, ?_, rfl, rfl⟩
  have hget : tbl.getD 0 0 = 2000 := by
    rw [List.getD_eq_getElem?_getD, h3 0 (by decide), sin_value_zero]
    rfl
  show u32 (tbl.getD 0 0) = 2000
  rw [hget]
  rfl

/-- C7, amended: for every register file `s`, every table and every number of timer
triggers during the wait, the first statement of `trigger_horn` sets the `DMA_CCR_EN`
bit of the DMA1 channel 3 control register and nothing else (armed), so that the
transfer runs during the wait: with the transfer counter in 1..100 and at least one
trigger, `DAC1->DHR12R1` holds on return the table entry sent last and `CNDTR` has
advanced by the number of triggers, wrapping after the last entry.  On return the
enable bit is clear (idle), every other bit of the control register has its value from
`s`, and every register other than that control register, `DAC1->DHR12R1` and `CNDTR`
(the GPIO ports with the motor direction and enable pins, RCC, TIM6, the DAC control
registers, the DMA addresses and channel selection) is equal to its value in `s`. -/
theorem trigger_horn_streams_then_idles (K : CMSIS) (sin_table : List ℕ) (triggers : ℕ)
    (s : Hw) :
    (∀ b, b < 32 → K.DMA_CCR_EN.testBit b = true →
      (trigger_horn_arm K s).DMA1_Channel3_CCR.testBit b = true) ∧
    { trigger_horn_arm K s with DMA1_Channel3_CCR := 0 } = { s with DMA1_Channel3_CCR := 0 } ∧
    (u32 K.DMA_CCR_EN ≠ 0 → 1 ≤ s.DMA1_Channel3_CNDTR → s.DMA1_Channel3_CNDTR ≤ NUM_SAMPLES →
      1 ≤ triggers →
      (trigger_horn K sin_table triggers s).DAC1_DHR12R1 =
        u32 (sin_table.getD
          ((NUM_SAMPLES - s.DMA1_Channel3_CNDTR + triggers - 1) % NUM_SAMPLES) 0) ∧
      NUM_SAMPLES - (trigger_horn K sin_table triggers s).DMA1_Channel3_CNDTR =
        (NUM_SAMPLES - s.DMA1_Channel3_CNDTR + triggers) % NUM_SAMPLES) ∧
    (∀ b, b < 32 → K.DMA_CCR_EN.testBit b = true →
      (trigger_horn K sin_table triggers s).DMA1_Channel3_CCR.testBit b = false) ∧
    (∀ b, b < 32 → K.DMA_CCR_EN.testBit b = false →
      (trigger_horn K sin_table triggers s).DMA1_Channel3_CCR.testBit b =
        s.DMA1_Channel3_CCR.testBit b) ∧
    { trigger_horn K sin_table triggers s with
        DMA1_Channel3_CCR := 0, DAC1_DHR12R1 := 0, DMA1_Channel3_CNDTR := 0 } =
      { s with DMA1_Channel3_CCR := 0, DAC1_DHR12R1 := 0, DMA1_Channel3_CNDTR := 0 } := by
  have hccr : (trigger_horn K sin_table triggers s).DMA1_Channel3_CCR =
      u32 (u32 (s.DMA1_Channel3_CCR ||| u32 K.DMA_CCR_EN) &&& not32 K.DMA_CCR_EN) := by
    show u32 ((delay K sin_table triggers 200 (trigger_horn_arm K s)).DMA1_Channel3_CCR &&&
      not32 K.DMA_CCR_EN) = _
    rw [delay_CCR]
    rfl
  refine ⟨?_, rfl, ?_, ?_, ?_, ?_⟩
  · intro b hb hc
    exact testBit_or_enable _ _ b hb hc
  · intro hEN h1 h2 hn
    have harm : (trigger_horn_arm K s).DMA1_Channel3_CCR &&& u32 K.DMA_CCR_EN ≠ 0 := by
      show u32 (s.DMA1_Channel3_CCR ||| u32 K.DMA_CCR_EN) &&& u32 K.DMA_CCR_EN ≠ 0
      rw [arm_and_enable]
      exact hEN
    obtain ⟨_, _, h3, h4⟩ :=
      delay_stream K sin_table 200 (trigger_horn_arm K s) harm h1 h2 triggers
    exact ⟨h4 hn, h3⟩
  · intro b hb hc
    rw [hccr]
    simp [testBit_u32, testBit_not32, hb, hc]
  · intro b hb hc
    rw [hccr]
    simp [testBit_u32, testBit_not32, hb, hc]
  · have hf := delay_frame K sin_table triggers 200 (trigger_horn_arm K s)
    have h := congrArg (fun x : Hw => { x with DMA1_Channel3_CCR := 0 }) hf
    exact h

/-- Witness for the amended C7: three triggers on the programmed channel with the table
2000, 2001, …, 2099 leave the third entry in `DAC1->DHR12R1`. -/
theorem trigger_horn_streams_then_idles_witness :
    (u32 stm32l432xx.DMA_CCR_EN ≠ 0 ∧ 1 ≤ Hw.programmed.DMA1_Channel3_CNDTR ∧
      Hw.programmed.DMA1_Channel3_CNDTR ≤ NUM_SAMPLES ∧ 1 ≤ 3) ∧
    (trigger_horn stm32l432xx (List.range' 2000 100) 3 Hw.programmed).DAC1_DHR12R1 = 2002 ∧
    NUM_SAMPLES - (trigger_horn stm32l432xx (List.range' 2000 100) 3
      Hw.programmed).DMA1_Channel3_CNDTR = 3 :=
  have hyp : u32 stm32l432xx.DMA_CCR_EN ≠ 0 ∧ 1 ≤ Hw.programmed.DMA1_Channel3_CNDTR ∧
      Hw.programmed.DMA1_Channel3_CNDTR ≤ NUM_SAMPLES ∧ 1 ≤ 3 := by decide
  have h := (trigger_horn_streams_then_idles stm32l432xx (List.range' 2000 100) 3
    Hw.programmed).2.2.1 hyp.1 hyp.2.1 hyp.2.2.1 hyp.2.2.2
  ⟨hyp, h.1.trans (by decide), h.2.trans (by decide)⟩

end EE14
